import Mathlib

/-!
Verification of the pygwt worktree resolution and lifecycle engine.

Shallow embedding of the decision logic of `src/pygwt/git.py`,
`src/pygwt/cli/commands/worktree.py`, `src/pygwt/misc.py` and
`src/pygwt/config.py`. Filesystem paths are modelled as lists of
path segments; the external git gateway (subprocess calls) is
modelled by abstract parameters where the commands only consume its
results.
-/

set_option autoImplicit false

namespace Pygwt

/-- A filesystem path, as its list of segments (pathlib.Path). -/
abbrev FsPath := List String

/-- pathlib: `path.parent` drops the last segment. -/
def FsPath.parent (p : FsPath) : FsPath := p.dropLast

/-- pathlib: `path.name` is the last segment (empty for the root path). -/
def FsPath.name (p : FsPath) : String := p.getLast?.getD ""

/-- pathlib: `path.joinpath(seg)` appends one segment. -/
def FsPath.joinpath (p : FsPath) (seg : String) : FsPath := p ++ [seg]

/--
`Repository.root` (git.py lines 67-86): starting from `self.path`
(a directory inside the `.git` metadata directory), walk to the parent
while the current name is not `.git`, then return the parent of the
`.git` directory. Walking parents means dropping segments from the end
of the path until a `.git` segment is dropped; the remaining front is
the root. The Python `while` loop would not terminate on a path without
a `.git` segment; the model returns the empty path there.
-/
def rootOfRev : List String → List String
  | [] => []
  | seg :: rest => if seg = ".git" then rest else rootOfRev rest

/-- `Repository.root` walks from the back of the path, so it is the
reversed-walk applied to the reversed segment list. -/
def rootOf (p : FsPath) : FsPath := (rootOfRev p.reverse).reverse

namespace Git

/-- A local branch: its name, optional upstream (the tracked remote
branch's full name such as `origin/feature`) and the commit it points at. -/
structure Branch where
  name : String
  upstream : Option String
  tip : String
  deriving Repr, DecidableEq

/-- A remote branch: full name such as `origin/feature`, and its tip commit. -/
structure RemoteBranch where
  name : String
  tip : String
  deriving Repr, DecidableEq

/-- The part of a repository's state that `Repository.get_branch` and
`Repository.create_branch_ex` consult and mutate. -/
structure RepoState where
  /-- Local branches, in creation order (`pygit2` lookup is by name);
  field named `locals` because `local` is reserved in Lean. -/
  locals : List Branch
  /-- Remote branches (`origin/...` namespace included in the name). -/
  remote : List RemoteBranch
  /-- Commit of the local `HEAD` reference, `none` when `HEAD` cannot be
  looked up (fresh bare clone). -/
  headCommit : Option String
  /-- Commit of `origin/HEAD`, the fallback used by `create_branch_ex`. -/
  originHeadCommit : Option String
  /-- `resolve_refish`: mapping from a ref-ish string to the commit it
  peels to; absent keys make `resolve_refish` raise. -/
  refish : List (String × String)
  deriving Repr, DecidableEq

/-- `pygit2.Repository.lookup_branch(name, BranchType.LOCAL)`:
first local branch with the given name, `none` when absent. -/
def lookupLocal (s : RepoState) (name : String) : Option Branch :=
  s.locals.find? (fun b => b.name = name)

/-- `pygit2.Repository.lookup_branch(name, BranchType.REMOTE)`:
first remote branch with the given (full) name, `none` when absent. -/
def lookupRemote (s : RepoState) (name : String) : Option RemoteBranch :=
  s.remote.find? (fun r => r.name = name)

/-- Errors raised by the embedded `Repository` methods. -/
inductive GitError where
  /-- `NoBranchError`: neither a local nor a remote branch was found and
  `create` was not set (git.py line 152). -/
  | noBranch
  /-- `KeyError` from `lookup_reference_dwim` / `resolve_refish` when the
  requested reference does not exist. -/
  | keyError
  /-- `pygit2.AlreadyExistsError` from `create_branch` on a taken name. -/
  | alreadyExists
  /-- `ValueError` for an invalid start point (git.py line 195). -/
  | valueError
  deriving Repr, DecidableEq

/-- The `start_point` argument: `str | pygit2.Branch | None`. -/
inductive StartPoint where
  | none
  | str (s : String)
  | branch (b : Branch)
  deriving Repr, DecidableEq

/-- `pygit2.Repository.create_branch(name, commit)`: append a new local
branch with no upstream; raises when the name is taken. -/
def create_branch (s : RepoState) (name : String) (commit : String) :
    Except GitError (Branch × RepoState) :=
  if (lookupLocal s name).isSome then .error .alreadyExists
  else
    let b : Branch := ⟨name, Option.none, commit⟩
    .ok (b, { s with locals := s.locals ++ [b] })

/-- `Repository.create_branch_ex` (git.py lines 154-198): peel the start
point (the local `HEAD`, with `origin/HEAD` as fallback, when omitted) to
a commit and create the branch there. -/
def create_branch_ex (s : RepoState) (name : String) (start_point : StartPoint) :
    Except GitError (Branch × RepoState) := do
  let commit ← match start_point with
    | .none =>
        match s.headCommit with
        | some c => pure c
        | Option.none =>
            match s.originHeadCommit with
            | some c => pure c
            | Option.none => Except.error GitError.keyError
    | .str sp =>
        match s.refish.find? (fun kv => kv.1 = sp) with
        | some kv => pure kv.2
        | Option.none => Except.error GitError.keyError
    | .branch b => pure b.tip
  create_branch s name commit

/-- `Repository.get_branch` (git.py lines 88-152): return an existing
local branch; else materialise a remote `origin/<name>` branch as a local
tracking branch; else, when `create` is set, create a fresh branch at the
start point; else raise `NoBranchError`. -/
def get_branch (s : RepoState) (name : String)
    (start_point : StartPoint) (create : Bool) :
    Except GitError (Branch × RepoState) :=
  match lookupLocal s name with
  | some branch => .ok (branch, s)
  | Option.none =>
    match lookupRemote s ("origin/" ++ name) with
    | some remote => do
        let (branch, s1) ← create_branch_ex s name (.branch ⟨remote.name, Option.none, remote.tip⟩)
        -- `branch.upstream = remote` mutates the just-created branch.
        let branch2 : Branch := { branch with upstream := some remote.name }
        let s2 : RepoState :=
          { s1 with locals := s1.locals.map (fun b => if b.name = name then branch2 else b) }
        .ok (branch2, s2)
    | Option.none =>
      if create then create_branch_ex s name start_point
      else .error .noBranch

end Git

namespace Git

/-- A linked worktree as the engine sees it: the abstract metadata name
(`.git/worktrees/<name>`), the checkout path, the branch that
`open_worktree(w).head.shorthand` reports, and `is_prunable`. -/
structure Worktree where
  name : String
  path : FsPath
  branch : String
  prunable : Bool
  deriving Repr, DecidableEq

/-- State consulted and mutated by `Repository.get_worktree`
(git.py lines 287-351). `rootIsBare` and `rootHead` describe
`Repository(self.root)`; `branches` is the branch state of `get_branch`. -/
structure WtState where
  /-- `pygit2.Repository.path`, a directory inside the `.git` metadata. -/
  selfPath : FsPath
  /-- `Repository(self.root).is_bare`. -/
  rootIsBare : Bool
  /-- `Repository(self.root).head.shorthand`. -/
  rootHead : String
  /-- The linked worktrees, in `list_worktrees` order. -/
  worktrees : List Worktree
  /-- Branch state shared with `get_branch`. -/
  branches : RepoState
  deriving Repr, DecidableEq

/-- `Repository.root` for the worktree state. -/
def WtState.root (s : WtState) : FsPath := rootOf s.selfPath

/-- `Repository.list_worktrees_ex2` (git.py lines 213-223) keys worktrees
by checked-out branch in a dict comprehension, so on duplicate branch
names the later entry wins; `lookup_worktree_ex(name).get` (lines 225-243)
then returns that entry, or raises `NoWorktreeError` when absent. -/
def lookup_worktree_ex (s : WtState) (name : String) : Option Worktree :=
  s.worktrees.reverse.find? (fun w => w.branch = name)

/-- `pygit2.Worktree | FakeWorktree`: either a real linked worktree or the
`FakeWorktree(name, path)` surrogate for the root checkout. -/
inductive WorktreeLike where
  | real (w : Worktree)
  | fake (name : String) (path : FsPath)
  deriving Repr, DecidableEq

/-- `Repository.as_worktree` (git.py lines 265-285) on the root
repository: the worktree whose branch is `head.shorthand` when one
exists, else `FakeWorktree(head.shorthand, root)`. -/
def as_worktree (s : WtState) : WorktreeLike :=
  match lookup_worktree_ex s s.rootHead with
  | some w => .real w
  | Option.none => .fake s.rootHead (WtState.root s)

/-- Errors raised by `get_worktree`. -/
inductive WtError where
  /-- `NoWorktreeError`: the worktree is absent and `create` was not set. -/
  | noWorktree
  /-- An error propagated out of `get_branch`. -/
  | branchError (e : GitError)
  deriving Repr, DecidableEq

/-- Stands in for `hashlib.sha1(name.encode()).hexdigest()`
(git.py line 341): the engine only uses the digest as an abstract
worktree metadata name, so the model keeps the argument and leaves the
hash itself uninterpreted. -/
def sha1_hexdigest (s : String) : String := "sha1-" ++ s

/-- `Repository.restore_worktree` (git.py lines 368-380): a no-op on a
non-prunable worktree; otherwise repairs the checkout (directory and
`.git` file restored, files checked out — filesystem effects), after
which the worktree is no longer prunable. -/
def restore_worktree (s : WtState) (w : Worktree) : WtState × Worktree :=
  if w.prunable then
    let w2 := { w with prunable := false }
    ({ s with worktrees := s.worktrees.map (fun x => if x.name = w.name then w2 else x) }, w2)
  else (s, w)

/-- `Repository.get_worktree` (git.py lines 287-351).

The filesystem-only effects (`dest.parent.mkdir`, `Path.resolve` — the
identity on the absolute segment paths of the model) carry no state here.
`add_worktree(worktree_name, dest, branch)` appends a fresh, non-prunable
worktree checked out at `dest` on `branch`. -/
def get_worktree (s : WtState) (name : String) (create : Bool)
    (start_point : StartPoint) (dest : Option FsPath) :
    Except WtError (WorktreeLike × WtState) :=
  -- make sure that the given name does not refer to a non-bare root
  if ¬s.rootIsBare ∧ s.rootHead = name then
    .ok (as_worktree s, s)
  else
    match lookup_worktree_ex s name with
    | some worktree =>
        let (s1, w1) := restore_worktree s worktree
        .ok (.real w1, s1)
    | Option.none =>
        if create then
          let destPath : FsPath :=
            match dest with
            | some d => d
            | Option.none => (WtState.root s).joinpath name
          match get_branch s.branches name start_point true with
          | .error e => .error (.branchError e)
          | .ok (_branch, bs) =>
              let worktree : Worktree := ⟨sha1_hexdigest name, destPath, name, false⟩
              let s1 : WtState := { s with branches := bs, worktrees := s.worktrees ++ [worktree] }
              let (s2, w2) := restore_worktree s1 worktree
              .ok (.real w2, s2)
        else .error .noWorktree

end Git

namespace Config

/-- The pydantic field values of `Registry` (config.py lines 10-20). -/
structure RegistryData where
  last_worktree : Option FsPath
  last_repository : Option FsPath
  repositories : List FsPath
  deriving Repr, DecidableEq

/-- Field defaults of the `Registry` model. -/
def RegistryData.default : RegistryData := ⟨Option.none, Option.none, []⟩

/-- Process-wide state of the `Registry` class: the cached singleton's
field values (`_instance`, `none` before the first construction), how
often `__new__` actually allocated a fresh object, and how many `atexit`
save hooks have been registered. -/
structure ProcState where
  instanceFields : Option RegistryData
  allocations : Nat
  atexitHooks : Nat
  deriving Repr, DecidableEq

/-- The body of `Registry.__init__` (config.py lines 30-42) minus the
hook registration: load the JSON registry file when it exists, else
start from the field defaults. -/
def registry_init (disk : Option RegistryData) : RegistryData :=
  match disk with
  | some d => d
  | Option.none => RegistryData.default

/-- `Registry()`: Python object construction runs `__new__`
(config.py lines 24-28), which allocates only while `_instance` is
unset and returns the cached instance afterwards, and then always runs
`__init__` (lines 30-42) on the returned instance, re-reading the
configuration file and registering one more `atexit` hook. -/
def registry_construct (disk : Option RegistryData) (s : ProcState) : ProcState :=
  let s1 := if s.instanceFields.isNone then { s with allocations := s.allocations + 1 } else s
  { s1 with
      instanceFields := some (registry_init disk)
      atexitHooks := s1.atexitHooks + 1 }

/-- An in-memory mutation of the singleton:
`Registry().last_worktree = p`. -/
def registry_set_last_worktree (s : ProcState) (p : FsPath) : ProcState :=
  { s with instanceFields := s.instanceFields.map (fun f => { f with last_worktree := some p }) }

end Config

namespace Cmd

/-- The gateway functions of the `pygwt.git` module that
`cli/commands/worktree.py` consumes, held abstract: `worktree_list()`
yields `(path, branch, sha)` triples; `worktree_add(name, start_point)`
either yields `(destination, repo_root)` or fails
(`subprocess.SubprocessError`, modelled by `none`);
`worktree_remove(name, force)` either succeeds or fails likewise. -/
structure GitGateway where
  worktreeList : List (FsPath × String × String)
  worktreeAdd : String → Option String → Option (FsPath × FsPath)
  removeOk : String → Bool → Bool

/-- `switch` (cli/commands/worktree.py lines 166-209). The `Except.ok`
value carries the echoed destination and the registry after the final
`config.last_worktree = Path.cwd()`; `Except.error` carries the process
exit status, reached before that assignment, with nothing echoed.
A `worktree_add` failure propagates out of the command and is turned
into a nonzero exit by the CLI wrapper. -/
def switchCmd (env : GitGateway) (reg : Config.RegistryData) (cwd : FsPath)
    (name : String) (start_point : Option String) (create : Bool) :
    Except Nat (FsPath × Config.RegistryData) :=
  if name = "-" then
    match reg.last_worktree with
    | some last => .ok (last, { reg with last_worktree := some cwd })
    | Option.none => .error 1
  else
    match (env.worktreeList.find? (fun e => e.2.1 = name)).map (fun e => e.1) with
    | some dest => .ok (dest, { reg with last_worktree := some cwd })
    | Option.none =>
        if create = false then .error 1
        else
          match env.worktreeAdd name start_point with
          | some (dest, _root) => .ok (dest, { reg with last_worktree := some cwd })
          | Option.none => .error 1

/-- `remove` (cli/commands/worktree.py lines 222-234): one
`git.worktree_remove(name, force)` per name, in order; the first
`SubprocessError` exits with status 1. Returns the invocations made,
the names successfully removed, and the exit status (`none` = success).
Nothing is rolled back: the removed-names list only grows. -/
def removeCmd (removeOk : String → Bool → Bool) (names : List String) (force : Bool) :
    List (String × Bool) × List String × Option Nat :=
  match names with
  | [] => ([], [], Option.none)
  | n :: rest =>
      if removeOk n force then
        let (inv, rem, code) := removeCmd removeOk rest force
        ((n, force) :: inv, n :: rem, code)
      else ([(n, force)], [], some 1)

/-- Observable actions of the `shell` command. -/
inductive ShellAction where
  /-- `Shell.detect().spawn(dest)`. -/
  | spawn (dest : FsPath)
  /-- `git.worktree_remove(str(dest))` after the shell exits. -/
  | removeWorktree (dest : FsPath)
  deriving Repr, DecidableEq

/-- `shell` (cli/commands/worktree.py lines 264-318): scan
`git.worktree_list()` for the first entry whose branch is `name`. An
existing entry together with `create` is a usage error (exit 1 before
any shell is spawned); without `create` the entry's path becomes the
spawn destination. With no entry, `create` is required (else exit 1)
and `worktree_add` provides the destination; `create` together with
`delete` removes the worktree after the shell exits. The `GIT_DIR`
environment pop/restore around the spawn is an OS-environment effect
with no bearing on the actions modelled here. -/
def shellCmd (env : GitGateway) (name : String) (start_point : Option String)
    (create : Bool) (delete : Bool) : List ShellAction × Option Nat :=
  match env.worktreeList.find? (fun e => e.2.1 = name) with
  | some entry =>
      if create then ([], some 1)
      else ([ShellAction.spawn entry.1], Option.none)
  | Option.none =>
      if create = false then ([], some 1)
      else
        match env.worktreeAdd name start_point with
        | some (dest, _root) =>
            (ShellAction.spawn dest :: (if delete then [ShellAction.removeWorktree dest] else []),
             Option.none)
        | Option.none => ([], some 1)

end Cmd

namespace Misc

/-- `pushd.Mode` (misc.py lines 68-82): a bitmask with
`create = 1`, `parents = 3`, `exist_ok = 5`. -/
def modeCreate : Nat := 1

/-- `pushd.Mode.parents`. -/
def modeParents : Nat := 3

/-- `pushd.Mode.exist_ok`. -/
def modeExistOk : Nat := 5

/-- The attributes of a `pushd` object (misc.py lines 84-99):
`__origin` (the working directory recorded at construction and again on
entry), `__dest` and `__mode`. -/
structure PushdCtx where
  origin : FsPath
  dest : FsPath
  mode : Nat
  deriving Repr, DecidableEq

/-- `pushd.__init__` (misc.py lines 84-99): records `Path.cwd()` as the
origin. -/
def pushd_init (path : FsPath) (mode : Nat) (cwd : FsPath) : PushdCtx :=
  ⟨cwd, path, mode⟩

/-- `pushd.__enter__` (misc.py lines 101-113): when the `create` bit is
set, `mkdir` runs first and may raise (`mkdirOk` abstracts the
filesystem, seeing the destination and the mode bits); then the origin
is re-recorded from `Path.cwd()` and the process changes into the
destination. On success the entered context and the new working
directory are returned; on a `mkdir` failure the working directory is
still the original one. -/
def pushd_enter (mkdirOk : FsPath → Nat → Bool) (p : PushdCtx) (cwd : FsPath) :
    Except Unit (PushdCtx × FsPath) :=
  if p.mode &&& modeCreate ≠ 0 ∧ mkdirOk p.dest p.mode = false then .error ()
  else .ok ({ p with origin := cwd }, p.dest)

/-- `pushd.__exit__` (misc.py lines 115-123): unconditionally change
back to the recorded origin, whatever the working directory is. -/
def pushd_exit (p : PushdCtx) (_cwd : FsPath) : FsPath :=
  p.origin

/-- The Python `with pushd(path, mode=mode):` statement around a body.
The body sees the working directory and returns its result together
with the working directory it left behind (it may itself have changed
directory, and it may fail). Per Python semantics, `__exit__` runs both
on normal completion and when the body raises; when `__enter__` itself
raises, neither the body nor `__exit__` runs. The returned pair is the
overall outcome (`Except.error none` = enter failed, `Except.error
(some e)` = body failed) and the final working directory. -/
def withPushd {α ε : Type} (mkdirOk : FsPath → Nat → Bool) (path : FsPath) (mode : Nat)
    (body : FsPath → Except ε α × FsPath) (cwd0 : FsPath) :
    Except (Option ε) α × FsPath :=
  let p := pushd_init path mode cwd0
  match pushd_enter mkdirOk p cwd0 with
  | .error _ => (.error Option.none, cwd0)
  | .ok (p1, cwd1) =>
      match body cwd1 with
      | (res, cwdBody) =>
          let cwdFinal := pushd_exit p1 cwdBody
          (match res with
           | .ok a => .ok a
           | .error e => .error (some e), cwdFinal)

end Misc

open Git Config Cmd Misc

/-! Helper lemmas shared by the claim theorems. -/

theorem find_branch_append_none {l : List Branch} {name : String}
    (h : l.find? (fun b => b.name = name) = Option.none)
    (b : Branch) (hb : b.name = name) :
    (l ++ [b]).find? (fun b => b.name = name) = some b := by
  rw [List.find?_append, h]
  simp [List.find?, hb]

theorem map_branches_of_find_none {l : List Branch} {name : String}
    (h : l.find? (fun b => b.name = name) = Option.none) (b2 : Branch) :
    l.map (fun b => if b.name = name then b2 else b) = l := by
  have hall := List.find?_eq_none.mp h
  calc l.map (fun b => if b.name = name then b2 else b)
      = l.map id := by
        apply List.map_congr_left
        intro a ha
        simp only [id]
        have : ¬ (a.name = name) := by simpa using hall a ha
        simp [this]
    _ = l := List.map_id l

theorem create_branch_of_absent {s : RepoState} {name : String} (commit : String)
    (h : lookupLocal s name = Option.none) :
    create_branch s name commit =
      .ok (⟨name, Option.none, commit⟩,
           { s with locals := s.locals ++ [⟨name, Option.none, commit⟩] }) := by
  simp [create_branch, h]

/-- C2: a branch name that already names a local branch is returned
unchanged by `get_branch`, for every `start_point` and every `create`
flag, and the repository state is not mutated. -/
theorem C2_local_branch_resolution_idempotent
    (s : RepoState) (name : String) (b : Branch) (sp : StartPoint) (c : Bool)
    (h : lookupLocal s name = some b) :
    get_branch s name sp c = .ok (b, s) := by
  simp [get_branch, h]

/-- C2 witness: a concrete repository whose only local branch is
returned unchanged. -/
theorem C2_local_branch_resolution_idempotent_witness :
    lookupLocal ⟨[⟨"main", Option.none, "c0"⟩], [], some "c0", Option.none, []⟩ "main"
        = some ⟨"main", Option.none, "c0"⟩ ∧
    get_branch ⟨[⟨"main", Option.none, "c0"⟩], [], some "c0", Option.none, []⟩ "main"
        (.str "x") true
        = .ok (⟨"main", Option.none, "c0"⟩,
               ⟨[⟨"main", Option.none, "c0"⟩], [], some "c0", Option.none, []⟩) :=
  ⟨by decide,
   C2_local_branch_resolution_idempotent _ "main" _ (.str "x") true (by decide)⟩

/-- C1: when `name` is absent locally but `origin/<name>` exists,
`get_branch` appends exactly one new local branch named `name` whose
upstream is `origin/<name>`, returns it, and a second resolution of the
same name afterwards returns that local branch with no further
mutation; the remote branch is thus never shadowed by an untracked
local branch. -/
theorem C1_remote_branch_materialised_once
    (s : RepoState) (name : String) (r : RemoteBranch)
    (sp sp2 : StartPoint) (c c2 : Bool)
    (hl : lookupLocal s name = Option.none)
    (hr : lookupRemote s ("origin/" ++ name) = some r) :
    get_branch s name sp c =
      .ok (⟨name, some ("origin/" ++ name), r.tip⟩,
           { s with locals := s.locals ++ [⟨name, some ("origin/" ++ name), r.tip⟩] }) ∧
    get_branch { s with locals := s.locals ++ [⟨name, some ("origin/" ++ name), r.tip⟩] }
        name sp2 c2 =
      .ok (⟨name, some ("origin/" ++ name), r.tip⟩,
           { s with locals := s.locals ++ [⟨name, some ("origin/" ++ name), r.tip⟩] }) := by
  have hrname : r.name = "origin/" ++ name := by
    have h1 := List.find?_some hr
    simpa using h1
  constructor
  · have hmap : (s.locals ++ [(⟨name, Option.none, r.tip⟩ : Branch)]).map
        (fun b => if b.name = name then
            ({ name := name, upstream := some ("origin/" ++ name), tip := r.tip } : Branch) else b)
        = s.locals ++ [⟨name, some ("origin/" ++ name), r.tip⟩] := by
      rw [List.map_append, map_branches_of_find_none hl]
      simp
    simp only [get_branch, hl, hr, create_branch_ex, hrname, pure, Except.pure,
      Bind.bind, Except.bind, create_branch_of_absent r.tip hl]
    simp [hmap]
  · apply C2_local_branch_resolution_idempotent
    unfold lookupLocal at hl ⊢
    simp only
    exact find_branch_append_none hl _ rfl

/-- C1 witness: a concrete repository with only the remote branch
`origin/feat`; resolving `feat` twice shows the create-then-return
behaviour at a concrete input. -/
theorem C1_remote_branch_materialised_once_witness :
    lookupLocal ⟨[], [⟨"origin/feat", "c1"⟩], some "h0", Option.none, []⟩ "feat"
        = Option.none ∧
    lookupRemote ⟨[], [⟨"origin/feat", "c1"⟩], some "h0", Option.none, []⟩ ("origin/" ++ "feat")
        = some ⟨"origin/feat", "c1"⟩ ∧
    get_branch ⟨[], [⟨"origin/feat", "c1"⟩], some "h0", Option.none, []⟩ "feat" .none false =
      .ok (⟨"feat", some ("origin/" ++ "feat"), "c1"⟩,
           ⟨[⟨"feat", some ("origin/" ++ "feat"), "c1"⟩], [⟨"origin/feat", "c1"⟩],
            some "h0", Option.none, []⟩) ∧
    get_branch ⟨[⟨"feat", some ("origin/" ++ "feat"), "c1"⟩], [⟨"origin/feat", "c1"⟩],
        some "h0", Option.none, []⟩ "feat" .none false =
      .ok (⟨"feat", some ("origin/" ++ "feat"), "c1"⟩,
           ⟨[⟨"feat", some ("origin/" ++ "feat"), "c1"⟩], [⟨"origin/feat", "c1"⟩],
            some "h0", Option.none, []⟩) :=
  ⟨by decide, by decide,
   (C1_remote_branch_materialised_once
      ⟨[], [⟨"origin/feat", "c1"⟩], some "h0", Option.none, []⟩ "feat" ⟨"origin/feat", "c1"⟩
      .none .none false false (by decide) (by decide)).1,
   (C1_remote_branch_materialised_once
      ⟨[], [⟨"origin/feat", "c1"⟩], some "h0", Option.none, []⟩ "feat" ⟨"origin/feat", "c1"⟩
      .none .none false false (by decide) (by decide)).2⟩

/-- C3: for a name absent both locally and remotely, `get_branch` with
the `create` flag creates one new local branch based at the given start
point, or at the current `HEAD` when the start point is omitted, and
the new branch has no upstream configured. -/
theorem C3_created_branch_start_point_and_untracked
    (s : RepoState) (name : String)
    (hl : lookupLocal s name = Option.none)
    (hr : lookupRemote s ("origin/" ++ name) = Option.none) :
    (∀ x cx, s.refish.find? (fun kv => kv.1 = x) = some (x, cx) →
        get_branch s name (.str x) true =
          .ok (⟨name, Option.none, cx⟩,
               { s with locals := s.locals ++ [⟨name, Option.none, cx⟩] })) ∧
    (∀ hcm, s.headCommit = some hcm →
        get_branch s name .none true =
          .ok (⟨name, Option.none, hcm⟩,
               { s with locals := s.locals ++ [⟨name, Option.none, hcm⟩] })) := by
  constructor
  · intro x cx hx
    simp [get_branch, hl, hr, create_branch_ex, hx, pure, Except.pure,
      Bind.bind, Except.bind, create_branch_of_absent cx hl]
  · intro hcm hhc
    simp [get_branch, hl, hr, create_branch_ex, hhc, pure, Except.pure,
      Bind.bind, Except.bind, create_branch_of_absent hcm hl]

/-- C3 witness: in a repository with no branch named `nb` anywhere,
creation bases the branch on the resolved start point `pt`, or on the
current `HEAD` commit `h0` when omitted, with no upstream. -/
theorem C3_created_branch_start_point_and_untracked_witness :
    lookupLocal ⟨[], [], some "h0", Option.none, [("pt", "c9")]⟩ "nb" = Option.none ∧
    lookupRemote ⟨[], [], some "h0", Option.none, [("pt", "c9")]⟩ ("origin/" ++ "nb")
        = Option.none ∧
    get_branch ⟨[], [], some "h0", Option.none, [("pt", "c9")]⟩ "nb" (.str "pt") true =
      .ok (⟨"nb", Option.none, "c9"⟩,
           ⟨[⟨"nb", Option.none, "c9"⟩], [], some "h0", Option.none, [("pt", "c9")]⟩) ∧
    get_branch ⟨[], [], some "h0", Option.none, [("pt", "c9")]⟩ "nb" .none true =
      .ok (⟨"nb", Option.none, "h0"⟩,
           ⟨[⟨"nb", Option.none, "h0"⟩], [], some "h0", Option.none, [("pt", "c9")]⟩) :=
  ⟨by decide, by decide,
   (C3_created_branch_start_point_and_untracked
      ⟨[], [], some "h0", Option.none, [("pt", "c9")]⟩ "nb" (by decide) (by decide)).1
     "pt" "c9" (by decide),
   (C3_created_branch_start_point_and_untracked
      ⟨[], [], some "h0", Option.none, [("pt", "c9")]⟩ "nb" (by decide) (by decide)).2
     "h0" (by decide)⟩

/-- C4 (amended): in the worktree-creating path of `get_worktree` (no
existing worktree for `name`, `create` set), the destination is the
explicit `dest` verbatim when given, and otherwise `<root>/<name>` with
`<root>` the parent of the `.git` metadata directory — regardless of
whether the repository is bare; there is no `.worktrees` subdirectory
in between. -/
theorem C4_worktree_destination_amended
    (s : WtState) (name : String) (sp : StartPoint) (dest : Option FsPath)
    (b : Branch) (bs : RepoState)
    (hroot : s.rootIsBare = true ∨ s.rootHead ≠ name)
    (hlw : lookup_worktree_ex s name = Option.none)
    (hb : get_branch s.branches name sp true = .ok (b, bs)) :
    get_worktree s name true sp dest =
      .ok (.real ⟨sha1_hexdigest name, dest.getD ((WtState.root s).joinpath name), name, false⟩,
           { s with branches := bs,
                    worktrees := s.worktrees ++
                      [⟨sha1_hexdigest name, dest.getD ((WtState.root s).joinpath name),
                        name, false⟩] }) := by
  have hcond : ¬(¬s.rootIsBare = true ∧ s.rootHead = name) := by
    rcases hroot with h | h
    · simp [h]
    · intro hc
      exact h hc.2
  simp only [get_worktree]
  rw [if_neg hcond, hlw, hb]
  cases dest <;> simp [restore_worktree, FsPath.joinpath]

/-- C4 counterexample: a non-bare repository rooted at `/home/repo`
whose branch `main` is checked out at the root; creating a worktree for
the existing local branch `feature-x` with no explicit destination
places it at `/home/repo/feature-x`, not at the
`/home/repo/.worktrees/feature-x` location the claim requires for
non-bare repositories. -/
theorem C4_worktree_destination_counterexample :
    (⟨["", "home", "repo", ".git"], false, "main", [],
      ⟨[⟨"feature-x", Option.none, "c0"⟩], [], some "c0", Option.none, []⟩⟩ : WtState).rootIsBare
      = false ∧
    get_worktree
      ⟨["", "home", "repo", ".git"], false, "main", [],
       ⟨[⟨"feature-x", Option.none, "c0"⟩], [], some "c0", Option.none, []⟩⟩
      "feature-x" true .none Option.none =
      .ok (.real ⟨sha1_hexdigest "feature-x", ["", "home", "repo", "feature-x"],
                  "feature-x", false⟩,
           ⟨["", "home", "repo", ".git"], false, "main",
            [⟨sha1_hexdigest "feature-x", ["", "home", "repo", "feature-x"], "feature-x", false⟩],
            ⟨[⟨"feature-x", Option.none, "c0"⟩], [], some "c0", Option.none, []⟩⟩) ∧
    (["", "home", "repo", "feature-x"] : FsPath)
      ≠ ["", "home", "repo", ".worktrees", "feature-x"] := by
  exact ⟨rfl, rfl, by decide⟩

/-- C4 witness: the amended destination rule evaluated at a concrete
bare repository (destination `<root>/<name>`) by applying the amended
theorem, with a branch already present locally. -/
theorem C4_worktree_destination_amended_witness :
    lookup_worktree_ex
      ⟨["", "srv", "repo", ".git"], true, "main", [],
       ⟨[⟨"feat", Option.none, "c0"⟩], [], some "c0", Option.none, []⟩⟩ "feat" = Option.none ∧
    get_branch (⟨[⟨"feat", Option.none, "c0"⟩], [], some "c0", Option.none, []⟩ : RepoState)
      "feat" .none true =
      .ok (⟨"feat", Option.none, "c0"⟩,
           ⟨[⟨"feat", Option.none, "c0"⟩], [], some "c0", Option.none, []⟩) ∧
    get_worktree
      ⟨["", "srv", "repo", ".git"], true, "main", [],
       ⟨[⟨"feat", Option.none, "c0"⟩], [], some "c0", Option.none, []⟩⟩
      "feat" true .none Option.none =
      .ok (.real ⟨sha1_hexdigest "feat", ["", "srv", "repo", "feat"], "feat", false⟩,
           ⟨["", "srv", "repo", ".git"], true, "main",
            [⟨sha1_hexdigest "feat", ["", "srv", "repo", "feat"], "feat", false⟩],
            ⟨[⟨"feat", Option.none, "c0"⟩], [], some "c0", Option.none, []⟩⟩) :=
  ⟨by decide, rfl,
   C4_worktree_destination_amended
     ⟨["", "srv", "repo", ".git"], true, "main", [],
      ⟨[⟨"feat", Option.none, "c0"⟩], [], some "c0", Option.none, []⟩⟩
     "feat" .none Option.none ⟨"feat", Option.none, "c0"⟩
     ⟨[⟨"feat", Option.none, "c0"⟩], [], some "c0", Option.none, []⟩
     (Or.inl rfl) (by decide) rfl⟩

/-- C10: when the root clone is non-bare and its checkout currently has
branch `name` checked out, `get_worktree` returns the root's worktree
representation — the `FakeWorktree` carrying the branch name and the
root path when no linked worktree matches — and performs no mutation at
all, for every `create` flag, `start_point` and `dest`. -/
theorem C10_nonbare_root_checkout_shortcut
    (s : WtState) (name : String) (create : Bool) (sp : StartPoint) (dest : Option FsPath)
    (hbare : s.rootIsBare = false) (hhead : s.rootHead = name)
    (hnw : lookup_worktree_ex s name = Option.none) :
    get_worktree s name create sp dest = .ok (.fake name (WtState.root s), s) := by
  have hcond : (¬s.rootIsBare = true ∧ s.rootHead = name) := ⟨by simp [hbare], hhead⟩
  simp only [get_worktree]
  rw [if_pos hcond]
  simp [as_worktree, hhead, hnw]

/-- C10 witness: the shortcut evaluated on a concrete non-bare
repository with `feat` checked out at the root, `create` set and both a
start point and an explicit destination supplied. -/
theorem C10_nonbare_root_checkout_shortcut_witness :
    (⟨["", "home", "repo", ".git"], false, "feat", [],
      ⟨[], [], some "c0", Option.none, []⟩⟩ : WtState).rootIsBare = false ∧
    lookup_worktree_ex
      ⟨["", "home", "repo", ".git"], false, "feat", [],
       ⟨[], [], some "c0", Option.none, []⟩⟩ "feat" = Option.none ∧
    get_worktree
      ⟨["", "home", "repo", ".git"], false, "feat", [],
       ⟨[], [], some "c0", Option.none, []⟩⟩
      "feat" true (.str "pt") (some ["", "tmp", "x"]) =
      .ok (.fake "feat" ["", "home", "repo"],
           ⟨["", "home", "repo", ".git"], false, "feat", [],
            ⟨[], [], some "c0", Option.none, []⟩⟩) :=
  ⟨rfl, by decide,
   C10_nonbare_root_checkout_shortcut
     ⟨["", "home", "repo", ".git"], false, "feat", [],
      ⟨[], [], some "c0", Option.none, []⟩⟩
     "feat" true (.str "pt") (some ["", "tmp", "x"]) rfl rfl (by decide)⟩

/-- C5: `switch("-")` with no recorded `last_worktree` exits with
status 1 and echoes no destination (the model's error outcome carries
none); after any successful `switch(name)` with `name` not `-`, the
registry records the working directory that was current at invocation
before the command returns, so a following `switch("-")` echoes that
pre-switch location. -/
theorem C5_switch_last_location_roundtrip
    (env env2 : GitGateway) (reg : Config.RegistryData) (cwd cwd2 : FsPath)
    (sp sp2 : Option String) (c c2 : Bool) :
    (reg.last_worktree = Option.none → switchCmd env reg cwd "-" sp c = .error 1) ∧
    (∀ name dest reg2, name ≠ "-" →
        switchCmd env reg cwd name sp c = .ok (dest, reg2) →
        reg2.last_worktree = some cwd ∧
        switchCmd env2 reg2 cwd2 "-" sp2 c2 =
          .ok (cwd, { reg2 with last_worktree := some cwd2 })) := by
  constructor
  · intro h
    simp [switchCmd, h]
  · intro name dest reg2 hname hok
    simp only [switchCmd, if_neg hname] at hok
    have hreg2 : reg2 = { reg with last_worktree := some cwd } := by
      cases hfind : (env.worktreeList.find? (fun e => e.2.1 = name)).map (fun e => e.1) with
      | some d =>
          rw [hfind] at hok
          exact (Prod.mk.injEq _ _ _ _ ▸ (Except.ok.injEq _ _ ▸ hok)).2.symm
      | none =>
          rw [hfind] at hok
          by_cases hc : c = false
          · rw [if_pos hc] at hok
            exact absurd hok (by simp)
          · rw [if_neg hc] at hok
            cases hadd : env.worktreeAdd name sp with
            | some pr =>
                rw [hadd] at hok
                exact (Prod.mk.injEq _ _ _ _ ▸ (Except.ok.injEq _ _ ▸ hok)).2.symm
            | none =>
                rw [hadd] at hok
                exact absurd hok (by simp)
    subst hreg2
    exact ⟨rfl, by simp [switchCmd]⟩

/-- C5 witness: with no last location, `switch("-")` exits 1; a
successful `switch("feat")` records the invocation-time working
directory, and `switch("-")` afterwards echoes it. -/
theorem C5_switch_last_location_roundtrip_witness :
    (⟨Option.none, Option.none, []⟩ : Config.RegistryData).last_worktree = Option.none ∧
    switchCmd ⟨[(["", "wt", "feat"], "feat", "abc")], fun _ _ => Option.none, fun _ _ => true⟩
      ⟨Option.none, Option.none, []⟩ ["", "home"] "-" Option.none false = .error 1 ∧
    ("feat" : String) ≠ "-" ∧
    switchCmd ⟨[(["", "wt", "feat"], "feat", "abc")], fun _ _ => Option.none, fun _ _ => true⟩
      ⟨Option.none, Option.none, []⟩ ["", "home"] "feat" Option.none false =
      .ok (["", "wt", "feat"], ⟨some ["", "home"], Option.none, []⟩) ∧
    (⟨some ["", "home"], Option.none, []⟩ : Config.RegistryData).last_worktree
      = some ["", "home"] ∧
    switchCmd ⟨[(["", "wt", "feat"], "feat", "abc")], fun _ _ => Option.none, fun _ _ => true⟩
      ⟨some ["", "home"], Option.none, []⟩ ["", "x"] "-" Option.none false =
      .ok (["", "home"], ⟨some ["", "x"], Option.none, []⟩) :=
  ⟨rfl,
   (C5_switch_last_location_roundtrip
      ⟨[(["", "wt", "feat"], "feat", "abc")], fun _ _ => Option.none, fun _ _ => true⟩
      ⟨[(["", "wt", "feat"], "feat", "abc")], fun _ _ => Option.none, fun _ _ => true⟩
      ⟨Option.none, Option.none, []⟩ ["", "home"] ["", "x"]
      Option.none Option.none false false).1 rfl,
   by decide, rfl, rfl,
   ((C5_switch_last_location_roundtrip
      ⟨[(["", "wt", "feat"], "feat", "abc")], fun _ _ => Option.none, fun _ _ => true⟩
      ⟨[(["", "wt", "feat"], "feat", "abc")], fun _ _ => Option.none, fun _ _ => true⟩
      ⟨Option.none, Option.none, []⟩ ["", "home"] ["", "x"]
      Option.none Option.none false false).2 "feat" ["", "wt", "feat"]
      ⟨some ["", "home"], Option.none, []⟩ (by decide) rfl).2⟩

/-- C6: `remove` invokes one removal per name, in the given order and
with the requested force flag, stops at the first failing removal with
exit status 1, never attempts any later name, and leaves earlier
successful removals in place (the removed list is exactly the prefix
that succeeded). -/
theorem C6_remove_stops_at_first_failure
    (okfn : String → Bool → Bool) (force : Bool) (pre post : List String) (x : String)
    (hpre : ∀ n ∈ pre, okfn n force = true) (hx : okfn x force = false) :
    removeCmd okfn (pre ++ x :: post) force =
      (pre.map (fun n => (n, force)) ++ [(x, force)], pre, some 1) := by
  induction pre with
  | nil => simp [removeCmd, hx]
  | cons n rest ih =>
      have hn : okfn n force = true := hpre n (by simp)
      have hrest : ∀ m ∈ rest, okfn m force = true := fun m hm => hpre m (by simp [hm])
      simp [removeCmd, hn, ih hrest]

/-- C6 witness: `remove(["a", "b"])` where removing `a` fails invokes
only the removal of `a`, exits 1, and never attempts `b`. -/
theorem C6_remove_stops_at_first_failure_witness :
    (fun (n : String) (_ : Bool) => !(n == "a")) "a" false = false ∧
    removeCmd (fun n _ => !(n == "a")) ["a", "b"] false =
      ([("a", false)], [], some 1) :=
  ⟨by decide,
   C6_remove_stops_at_first_failure (fun n _ => !(n == "a")) false [] ["b"] "a"
     (by intro n hn; cases hn) (by decide)⟩

/-- C7: when a worktree for `name` already exists, `shell` with the
create flag is a usage error — exit status 1 with no shell spawned and
the existing worktree not reused — while without the create flag the
existing worktree's path becomes the spawn destination. -/
theorem C7_shell_create_conflict_usage_error
    (env : GitGateway) (name : String) (sp sp2 : Option String) (d d2 : Bool)
    (entry : FsPath × String × String)
    (h : env.worktreeList.find? (fun e => e.2.1 = name) = some entry) :
    shellCmd env name sp true d = ([], some 1) ∧
    shellCmd env name sp2 false d2 = ([ShellAction.spawn entry.1], Option.none) := by
  constructor <;> simp [shellCmd, h]

/-- C7 witness: a concrete worktree list containing `feat`; the shell
command with create fails fast, without create it spawns at the
existing path. -/
theorem C7_shell_create_conflict_usage_error_witness :
    ([(["", "wt", "feat"], "feat", "abc")].find? (fun e => e.2.1 = "feat")
        = some (["", "wt", "feat"], "feat", "abc")) ∧
    shellCmd ⟨[(["", "wt", "feat"], "feat", "abc")], fun _ _ => Option.none, fun _ _ => true⟩
      "feat" Option.none true true = ([], some 1) ∧
    shellCmd ⟨[(["", "wt", "feat"], "feat", "abc")], fun _ _ => Option.none, fun _ _ => true⟩
      "feat" Option.none false false =
      ([ShellAction.spawn ["", "wt", "feat"]], Option.none) :=
  ⟨by decide,
   (C7_shell_create_conflict_usage_error
      ⟨[(["", "wt", "feat"], "feat", "abc")], fun _ _ => Option.none, fun _ _ => true⟩
      "feat" Option.none Option.none true false (["", "wt", "feat"], "feat", "abc")
      (by decide)).1,
   (C7_shell_create_conflict_usage_error
      ⟨[(["", "wt", "feat"], "feat", "abc")], fun _ _ => Option.none, fun _ _ => true⟩
      "feat" Option.none Option.none true false (["", "wt", "feat"], "feat", "abc")
      (by decide)).2⟩

/-- C8: the scoped directory change restores the working directory that
was current at entry on every exit path — when `__enter__` itself fails
before changing directory, when the body completes normally, and when
the body raises (including a body that changed directory itself). -/
theorem C8_pushd_restores_working_directory
    {α ε : Type} (mkdirOk : FsPath → Nat → Bool) (path : FsPath) (mode : Nat)
    (body : FsPath → Except ε α × FsPath) (cwd0 : FsPath) :
    (withPushd mkdirOk path mode body cwd0).2 = cwd0 := by
  simp only [withPushd, pushd_init, pushd_enter, pushd_exit]
  split_ifs with h
  · rfl
  · rcases hbody : body path with ⟨res, cwdBody⟩
    cases res <;> simp [hbody]

/-- C9 (amended): every construction of `Registry` yields the same
instance — `__new__` allocates only when none exists yet — but each
construction re-runs `__init__`, which re-reads the configuration file
and overwrites the in-memory fields. -/
theorem C9_registry_singleton_but_reloads
    (disk : Option RegistryData) (s : ProcState) :
    (registry_construct disk s).instanceFields = some (registry_init disk) ∧
    (s.instanceFields = Option.none →
        (registry_construct disk s).allocations = s.allocations + 1) ∧
    (s.instanceFields.isSome = true →
        (registry_construct disk s).allocations = s.allocations) := by
  refine ⟨rfl, ?_, ?_⟩
  · intro h
    simp [registry_construct, h]
  · intro h
    cases hf : s.instanceFields with
    | none => rw [hf] at h; cases h
    | some f => simp [registry_construct, hf]

/-- C9 witness: starting from a fresh process, the first construction
allocates; the second does not, showing the singleton half of the
amended claim at a concrete input. -/
theorem C9_registry_singleton_but_reloads_witness :
    (⟨Option.none, 0, 0⟩ : ProcState).instanceFields = Option.none ∧
    (registry_construct Option.none ⟨Option.none, 0, 0⟩).allocations = 0 + 1 ∧
    (registry_construct Option.none ⟨Option.none, 0, 0⟩).instanceFields
      = some (registry_init Option.none) ∧
    (registry_construct Option.none ⟨Option.none, 0, 0⟩).instanceFields.isSome = true ∧
    (registry_construct Option.none
        (registry_construct Option.none ⟨Option.none, 0, 0⟩)).allocations
      = (registry_construct Option.none ⟨Option.none, 0, 0⟩).allocations :=
  ⟨rfl,
   (C9_registry_singleton_but_reloads Option.none ⟨Option.none, 0, 0⟩).2.1 rfl,
   (C9_registry_singleton_but_reloads Option.none ⟨Option.none, 0, 0⟩).1,
   rfl,
   (C9_registry_singleton_but_reloads Option.none
      (registry_construct Option.none ⟨Option.none, 0, 0⟩)).2.2 rfl⟩

/-- C9 counterexample: with `last-worktree` persisted as `/a`, a first
construction loads it, an in-memory mutation sets it to `/b`, and a
second construction silently re-reads the file and discards the
mutation — refuting that the state is read from disk only once per
process. -/
theorem C9_registry_reload_discards_mutation :
    (registry_set_last_worktree
        (registry_construct (some ⟨some ["a"], Option.none, []⟩) ⟨Option.none, 0, 0⟩)
        ["b"]).instanceFields = some ⟨some ["b"], Option.none, []⟩ ∧
    (registry_construct (some ⟨some ["a"], Option.none, []⟩)
        (registry_set_last_worktree
          (registry_construct (some ⟨some ["a"], Option.none, []⟩) ⟨Option.none, 0, 0⟩)
          ["b"])).instanceFields = some ⟨some ["a"], Option.none, []⟩ ∧
    some (⟨some ["a"], Option.none, []⟩ : RegistryData)
      ≠ some ⟨some ["b"], Option.none, []⟩ := by
  refine ⟨rfl, rfl, by decide⟩

end Pygwt
